import Mathlib

/-!
Formal model of the streamup multipart-upload library (pkg/streamup).

The Go source is shallowly embedded: pure functions become Lean functions on
Nat (all the int64 quantities involved are sizes and counts, non-negative and
far below 2^63, so no overflow is reachable on the modelled paths), fallible
functions return Option, and the concurrent upload pipeline is modelled by
explicit outcome records for each stage.  Where the Go code computes
int(math.Ceil(float64 a / float64 b)) both operands are bounded by the
service-limit cap of 5 GiB * 10000 < 2^53, so the float64 division is exact
enough that the result equals the integer ceiling (a + b - 1) / b; the model
uses that integer form.
-/

namespace Streamup

/-- mbSize from calculator.go: 1 MiB. -/
def mbSize : Nat := 1024 * 1024

/-- targetParts from calculator.go: aim for about 1000 parts. -/
def targetParts : Nat := 1000

/-- defaultMinPartSize from limits.go: 5 MiB. -/
def defaultMinPartSize : Nat := 5 * 1024 * 1024

/-- defaultMaxPartSize from limits.go: 5 GiB. -/
def defaultMaxPartSize : Nat := 5 * 1024 * 1024 * 1024

/-- defaultMaxParts from limits.go. -/
def defaultMaxParts : Nat := 10000

/-- ServiceLimits from limits.go. -/
structure ServiceLimits where
  MinPartSize : Nat
  MaxPartSize : Nat
  MaxParts : Nat
deriving DecidableEq

/-- ServiceLimits.Validate from limits.go; true means the Go method returns
a nil error. -/
def ServiceLimits.Validate (l : ServiceLimits) : Bool :=
  decide (defaultMinPartSize ≤ l.MinPartSize) &&
  decide (l.MaxPartSize ≤ defaultMaxPartSize) &&
  decide (l.MinPartSize ≤ l.MaxPartSize) &&
  decide (0 < l.MaxParts) &&
  decide (l.MaxParts ≤ defaultMaxParts)

/-- ServiceLimits.MaxFileSize from limits.go. -/
def ServiceLimits.MaxFileSize (l : ServiceLimits) : Nat :=
  l.MaxPartSize * l.MaxParts

/-- DefaultS3Limits from limits.go. -/
def DefaultS3Limits : ServiceLimits :=
  { MinPartSize := defaultMinPartSize
    MaxPartSize := defaultMaxPartSize
    MaxParts := defaultMaxParts }

/-- roundToNearestMB from calculator.go. -/
def roundToNearestMB (size : Nat) : Nat :=
  let remainder := size % mbSize
  if remainder < mbSize / 2 then size - remainder
  else size + (mbSize - remainder)

/-- Models the Go expression int(math.Ceil(float64 a / float64 b)) for the
operand ranges reachable in calculator.go (both below 2^53, b positive),
where the float64 computation yields the exact integer ceiling. -/
def goCeilDiv (a b : Nat) : Nat := (a + b - 1) / b

/-- The pre-clamp candidate of CalculateOptimalPartSize (calculator.go
lines 54-75): ideal size for about 1000 parts, capped by the memory budget
when one is set, rounded to the nearest MiB. -/
def roundedCandidatePartSize (fileSize maxMemoryMB workers queueSize : Nat) : Nat :=
  let idealPartSize := fileSize / targetParts
  let totalSlots := workers + queueSize
  let memoryConstrainedPartSize := maxMemoryMB * mbSize / totalSlots
  let partSize1 :=
    if 0 < maxMemoryMB ∧ memoryConstrainedPartSize < idealPartSize then
      memoryConstrainedPartSize
    else idealPartSize
  roundToNearestMB partSize1

/-- The part size candidate of CalculateOptimalPartSize after the clamps of
calculator.go lines 77-85: the rounded candidate clamped to
[MinPartSize, MaxPartSize]. -/
def clampedPartSize (fileSize maxMemoryMB workers queueSize : Nat)
    (limits : ServiceLimits) : Nat :=
  let partSize2 := roundedCandidatePartSize fileSize maxMemoryMB workers queueSize
  let partSize3 := if partSize2 < limits.MinPartSize then limits.MinPartSize else partSize2
  if limits.MaxPartSize < partSize3 then limits.MaxPartSize else partSize3

/-- CalculateOptimalPartSize from calculator.go; none models a returned
error. -/
def CalculateOptimalPartSize (fileSize maxMemoryMB workers queueSize : Nat)
    (limits : ServiceLimits) : Option Nat :=
  if !limits.Validate then none
  else if limits.MaxFileSize < fileSize then none
  else
    let partSize := clampedPartSize fileSize maxMemoryMB workers queueSize limits
    let actualParts := goCeilDiv fileSize partSize
    if limits.MaxParts < actualParts then
      let recomputed := roundToNearestMB (goCeilDiv fileSize limits.MaxParts)
      if limits.MaxPartSize < recomputed then none else some recomputed
    else
      some partSize

/-- CalculateMemoryUsage from calculator.go. -/
def CalculateMemoryUsage (partSize workers queueSize : Nat) : Nat :=
  partSize * (workers + queueSize)

/-- calculateBackoff from uploader.go, in milliseconds.  The Go code computes
retryDelay * retryMultiplier ^ attempt in float64 and caps it at
maxRetryDelay; for the parameter values of interest (powers of two times
1000, capped at 30000) the float64 arithmetic is exact or already above the
cap, so the Nat computation agrees. -/
def calculateBackoff (retryDelay retryMultiplier maxRetryDelay attempt : Nat) : Nat :=
  let backoffMs := retryDelay * retryMultiplier ^ attempt
  if maxRetryDelay < backoffMs then maxRetryDelay else backoffMs

example : CalculateOptimalPartSize (70 * 1024 * 1024 * 1024) 0 4 10 DefaultS3Limits
    = some (72 * 1024 * 1024) := by decide
example : CalculateOptimalPartSize (100 * 1024 * 1024) 0 4 10 DefaultS3Limits
    = some (5 * 1024 * 1024) := by decide
example : CalculateOptimalPartSize (500 * 1024 * 1024 * 1024) 2048 4 10 DefaultS3Limits
    = some (146 * 1024 * 1024) := by decide
example : CalculateOptimalPartSize (60 * 1024 * 1024 * 1024 * 1024) 0 4 10 DefaultS3Limits
    = none := by decide

/-- Rounding to the nearest MiB never adds more than half a MiB. -/
theorem roundToNearestMB_le_add_half (x : Nat) :
    roundToNearestMB x ≤ x + mbSize / 2 := by
  simp only [roundToNearestMB, mbSize]
  split_ifs <;> omega

/-- The clamped candidate never exceeds MaxPartSize. -/
theorem clampedPartSize_le_max (fileSize maxMemoryMB workers queueSize : Nat)
    (limits : ServiceLimits) :
    clampedPartSize fileSize maxMemoryMB workers queueSize limits ≤ limits.MaxPartSize := by
  simp only [clampedPartSize]
  split_ifs <;> omega

/-- The clamped candidate is at least MinPartSize as long as the limits are
consistent. -/
theorem min_le_clampedPartSize (fileSize maxMemoryMB workers queueSize : Nat)
    (limits : ServiceLimits) (hml : limits.MinPartSize ≤ limits.MaxPartSize) :
    limits.MinPartSize ≤ clampedPartSize fileSize maxMemoryMB workers queueSize limits := by
  simp only [clampedPartSize]
  split_ifs <;> omega

/-- A successful CalculateOptimalPartSize run means the limits validate, the
file fits, and the result comes from one of the two return sites. -/
theorem calculateOptimalPartSize_cases
    (fileSize maxMemoryMB workers queueSize : Nat) (limits : ServiceLimits)
    (chunkSize : Nat)
    (h : CalculateOptimalPartSize fileSize maxMemoryMB workers queueSize limits
        = some chunkSize) :
    limits.Validate = true ∧ fileSize ≤ limits.MaxFileSize ∧
    ((goCeilDiv fileSize (clampedPartSize fileSize maxMemoryMB workers queueSize limits)
          ≤ limits.MaxParts ∧
        chunkSize = clampedPartSize fileSize maxMemoryMB workers queueSize limits) ∨
      (limits.MaxParts
          < goCeilDiv fileSize (clampedPartSize fileSize maxMemoryMB workers queueSize limits) ∧
        chunkSize = roundToNearestMB (goCeilDiv fileSize limits.MaxParts) ∧
        chunkSize ≤ limits.MaxPartSize)) := by
  unfold CalculateOptimalPartSize at h
  cases hval : limits.Validate with
  | false => rw [hval] at h; simp at h
  | true =>
    rw [hval] at h
    simp only [Bool.not_true, Bool.false_eq_true, if_false] at h
    split_ifs at h with h1 h2 h3
    · simp only [Option.some.injEq] at h
      exact ⟨rfl, by omega, Or.inr ⟨h2, h.symm, by omega⟩⟩
    · simp only [Option.some.injEq] at h
      exact ⟨rfl, by omega, Or.inl ⟨by omega, h.symm⟩⟩

/-- With a positive memory budget the rounded candidate stays within half a
MiB of the memory-constrained part size. -/
theorem roundedCandidate_le_memCap (fileSize maxMemoryMB workers queueSize : Nat)
    (hmem : 0 < maxMemoryMB) :
    roundedCandidatePartSize fileSize maxMemoryMB workers queueSize
      ≤ maxMemoryMB * mbSize / (workers + queueSize) + mbSize / 2 := by
  simp only [roundedCandidatePartSize]
  split_ifs with hguard
  · exact roundToNearestMB_le_add_half _
  · have hle : fileSize / targetParts ≤ maxMemoryMB * mbSize / (workers + queueSize) := by
      rcases not_and_or.mp hguard with hc | hc <;> omega
    have := roundToNearestMB_le_add_half (fileSize / targetParts)
    omega

/-- C1 (amended): whenever CalculateOptimalPartSize succeeds the returned
chunk size is at most MaxPartSize; whenever additionally the clamped
candidate already keeps the part count within MaxParts (so the recompute
branch of calculator.go lines 91-101 is not taken), the chunk size also
lies above MinPartSize and ceil(totalSize / chunkSize) ≤ MaxParts.  The
original unconditional claim fails in the recompute branch, where rounding
the recomputed size down to the nearest MiB can push the part count back
above MaxParts (and, for a MinPartSize that is not a MiB multiple, below
MinPartSize). -/
theorem partSize_bounds (fileSize maxMemoryMB workers queueSize : Nat)
    (limits : ServiceLimits) (chunkSize : Nat)
    (h : CalculateOptimalPartSize fileSize maxMemoryMB workers queueSize limits
        = some chunkSize) :
    chunkSize ≤ limits.MaxPartSize ∧
    (goCeilDiv fileSize (clampedPartSize fileSize maxMemoryMB workers queueSize limits)
        ≤ limits.MaxParts →
      limits.MinPartSize ≤ chunkSize ∧ goCeilDiv fileSize chunkSize ≤ limits.MaxParts) := by
  obtain ⟨hv, hfs, hcase⟩ := calculateOptimalPartSize_cases _ _ _ _ _ _ h
  have hv' := hv
  simp only [ServiceLimits.Validate, Bool.and_eq_true, decide_eq_true_eq] at hv'
  obtain ⟨⟨⟨⟨-, -⟩, hml⟩, -⟩, -⟩ := hv'
  rcases hcase with ⟨hle, rfl⟩ | ⟨hgt, heq, hle2⟩
  · exact ⟨clampedPartSize_le_max _ _ _ _ _,
      fun _ => ⟨min_le_clampedPartSize _ _ _ _ _ hml, hle⟩⟩
  · exact ⟨hle2, fun hcontra => absurd hgt (by omega)⟩

/-- Witness for partSize_bounds: the 70 GiB default-tuning input selects
72 MiB parts, which satisfy both limit bounds and the part-count bound. -/
theorem partSize_bounds_witness :
    DefaultS3Limits.MinPartSize ≤ 75497472 ∧
    goCeilDiv (70 * 1024 * 1024 * 1024) 75497472 ≤ DefaultS3Limits.MaxParts :=
  (partSize_bounds (70 * 1024 * 1024 * 1024) 0 4 10 DefaultS3Limits 75497472
    (by decide)).2 (by decide)

/-- C1 counterexample: with S3 default limits, a 50 GiB + 1 byte file and a
1 MB memory budget spread over 14 slots, CalculateOptimalPartSize succeeds
with 5 MiB parts, yet the resulting part count ceil(fileSize / 5 MiB) = 10241
exceeds MaxParts = 10000: the recompute branch rounded 5368710 down to
5242880 and never re-checked the part count. -/
theorem partSize_maxParts_violated :
    CalculateOptimalPartSize 53687091201 1 4 10 DefaultS3Limits = some 5242880 ∧
    DefaultS3Limits.MaxParts < goCeilDiv 53687091201 5242880 :=
  ⟨by decide, by decide⟩

/-- C5 (amended): with a positive memory budget and positive slot count, if
the MiB-rounded memory-capped candidate is not raised by the MinPartSize
clamp and the MaxParts recompute branch is not taken, then the returned
chunk size times (workers + queueSize) stays within the memory budget up to
one MiB of chunk size per slot.  The original claim fails when the
MinPartSize clamp (or the recompute branch) raises the chunk size past the
memory-constrained value. -/
theorem memory_budget_respected (fileSize maxMemoryMB workers queueSize : Nat)
    (limits : ServiceLimits) (chunkSize : Nat)
    (hmem : 0 < maxMemoryMB)
    (hslots : 0 < workers + queueSize)
    (hmin : limits.MinPartSize ≤ roundedCandidatePartSize fileSize maxMemoryMB workers queueSize)
    (hnr : goCeilDiv fileSize (clampedPartSize fileSize maxMemoryMB workers queueSize limits)
        ≤ limits.MaxParts)
    (h : CalculateOptimalPartSize fileSize maxMemoryMB workers queueSize limits
        = some chunkSize) :
    chunkSize * (workers + queueSize)
      ≤ maxMemoryMB * mbSize + (workers + queueSize) * mbSize := by
  obtain ⟨hv, hfs, hcase⟩ := calculateOptimalPartSize_cases _ _ _ _ _ _ h
  rcases hcase with ⟨hle, rfl⟩ | ⟨hgt, heq, hle2⟩
  · have hrc := roundedCandidate_le_memCap fileSize maxMemoryMB workers queueSize hmem
    have hclamp : clampedPartSize fileSize maxMemoryMB workers queueSize limits
        ≤ roundedCandidatePartSize fileSize maxMemoryMB workers queueSize := by
      simp only [clampedPartSize]
      split_ifs <;> omega
    have step1 : clampedPartSize fileSize maxMemoryMB workers queueSize limits
        ≤ maxMemoryMB * mbSize / (workers + queueSize) + mbSize := by
      have hhalf : mbSize / 2 ≤ mbSize := Nat.div_le_self _ _
      omega
    have hm : (maxMemoryMB * mbSize / (workers + queueSize)) * (workers + queueSize)
        ≤ maxMemoryMB * mbSize := Nat.div_mul_le_self _ _
    calc clampedPartSize fileSize maxMemoryMB workers queueSize limits * (workers + queueSize)
        ≤ (maxMemoryMB * mbSize / (workers + queueSize) + mbSize) * (workers + queueSize) :=
          Nat.mul_le_mul_right _ step1
      _ = (maxMemoryMB * mbSize / (workers + queueSize)) * (workers + queueSize)
            + mbSize * (workers + queueSize) := by rw [Nat.add_mul]
      _ ≤ maxMemoryMB * mbSize + (workers + queueSize) * mbSize := by
          rw [Nat.mul_comm mbSize]
          exact Nat.add_le_add_right hm _
  · exact absurd hgt (by omega)

/-- Witness for memory_budget_respected: a 500 GiB file under a 2 GiB budget
with 14 slots gets 146 MiB parts, within one MiB per slot of the budget. -/
theorem memory_budget_witness :
    153092096 * (4 + 10) ≤ 2048 * mbSize + (4 + 10) * mbSize :=
  memory_budget_respected (500 * 1024 * 1024 * 1024) 2048 4 10 DefaultS3Limits
    153092096 (by decide) (by decide) (by decide) (by decide) (by decide)

/-- C5 counterexample: a 100 MiB file under a 1 MB budget with 14 slots gets
5 MiB parts because of the MinPartSize clamp, so the resident-memory product
5 MiB * 14 exceeds the budget by far more than one MiB per slot. -/
theorem memory_budget_violated :
    CalculateOptimalPartSize 104857600 1 4 10 DefaultS3Limits = some 5242880 ∧
    1 * mbSize + (4 + 10) * mbSize < 5242880 * (4 + 10) :=
  ⟨by decide, by decide⟩

/-- C8: with RetryDelay 1000 ms, RetryMultiplier 2 and MaxRetryDelay
30000 ms, calculateBackoff yields exactly 1000, 2000, 4000, 8000, 16000 ms
for attempts 0 through 4 and exactly 30000 ms for every attempt from 5 on. -/
theorem backoff_sequence :
    (calculateBackoff 1000 2 30000 0 = 1000 ∧ calculateBackoff 1000 2 30000 1 = 2000 ∧
     calculateBackoff 1000 2 30000 2 = 4000 ∧ calculateBackoff 1000 2 30000 3 = 8000 ∧
     calculateBackoff 1000 2 30000 4 = 16000) ∧
    ∀ attempt : Nat, 5 ≤ attempt → calculateBackoff 1000 2 30000 attempt = 30000 := by
  refine ⟨by decide, fun attempt h5 => ?_⟩
  have hpow : (2:Nat) ^ 5 ≤ 2 ^ attempt := Nat.pow_le_pow_right (by norm_num) h5
  have h32 : 32000 ≤ 1000 * 2 ^ attempt := by
    calc (32000:Nat) = 1000 * 2 ^ 5 := by norm_num
      _ ≤ 1000 * 2 ^ attempt := Nat.mul_le_mul_left _ hpow
  have hcap : 30000 < 1000 * 2 ^ attempt := by omega
  simp [calculateBackoff, hcap]

/-- Witness for backoff_sequence: attempt 7 is capped at 30000 ms. -/
theorem backoff_sequence_witness : calculateBackoff 1000 2 30000 7 = 30000 :=
  backoff_sequence.2 7 (by norm_num)

/-- completedPart from uploader.go: a part number with its ETag, or an
error (modelled as an error message). -/
structure completedPart where
  number : Nat
  etag : String
  err : Option String
deriving DecidableEq

/-- Errors returned by the upload pipeline: UploadError from errors.go
(operation plus underlying cause) or an error passed through unwrapped
(such as a context error). -/
inductive UErr where
  | uploadError (operation : String) (cause : String)
  | raw (cause : String)
deriving DecidableEq

/-- The comparator of the sort.Slice call in collectResults (uploader.go
lines 473-475): completed parts are ordered by part number. -/
def partLE (a b : Nat × String) : Prop := a.1 ≤ b.1

instance : DecidableRel partLE := fun a b => Nat.decLe a.1 b.1

instance : IsTotal (Nat × String) partLE := ⟨fun a b => Nat.le_total a.1 b.1⟩

instance : IsTrans (Nat × String) partLE := ⟨fun _ _ _ h h' => Nat.le_trans h h'⟩

instance : IsAntisymm (Nat × String) (fun a b => a.1 < b.1) :=
  ⟨fun _ _ h h' => absurd h' (Nat.lt_asymm h)⟩

/-- The sort of collectResults: sort the collected (number, etag) pairs by
part number.  Go's sort.Slice is not stable, but the pipeline only ever
sorts lists with pairwise distinct part numbers, on which every by-number
sort agrees; insertionSort is the deterministic model. -/
def sortPartsByNumber (l : List (Nat × String)) : List (Nat × String) :=
  List.insertionSort partLE l

/-- The receive loop of collectResults (uploader.go lines 455-478).
Returns the error (none on success), the collected and finally sorted
parts, and the results still unconsumed on the channel when the function
returned.  The Go loop body is modelled verbatim: on the first error result
the function returns immediately with that error and nil parts, so the rest
of the channel is never received; otherwise it appends the pair and, at
channel close, sorts by part number. -/
def collectResultsLoop (acc : List (Nat × String)) :
    List completedPart → Option UErr × List (Nat × String) × List completedPart
  | [] => (none, sortPartsByNumber acc, [])
  | r :: rest =>
    match r.err with
    | some e =>
        (some (UErr.uploadError ("uploading part " ++ toString r.number) e), [], rest)
    | none => collectResultsLoop (acc ++ [(r.number, r.etag)]) rest

/-- collectResults from uploader.go, started with an empty slice. -/
def collectResults (results : List completedPart) :
    Option UErr × List (Nat × String) × List completedPart :=
  collectResultsLoop [] results

/-- On an all-success result sequence the loop returns no error, the sorted
pairs, and an empty unconsumed remainder. -/
theorem collectResultsLoop_ok (rs : List completedPart) :
    ∀ acc, (∀ r ∈ rs, r.err = none) →
      collectResultsLoop acc rs
        = (none, sortPartsByNumber (acc ++ rs.map fun r => (r.number, r.etag)), []) := by
  induction rs with
  | nil => intro acc _; simp [collectResultsLoop]
  | cons r rest ih =>
    intro acc h
    obtain ⟨n, t, e⟩ := r
    have hr : e = none := h ⟨n, t, e⟩ (List.mem_cons_self _ _)
    subst hr
    have htail := ih (acc ++ [(n, t)]) fun x hx => h x (List.mem_cons_of_mem _ hx)
    simp only [collectResultsLoop, htail]
    simp [List.append_assoc]

/-- collectResults on an all-success sequence: no error, sorted pairs,
nothing left unconsumed. -/
theorem collectResults_ok (rs : List completedPart) (h : ∀ r ∈ rs, r.err = none) :
    collectResults rs
      = (none, sortPartsByNumber (rs.map fun r => (r.number, r.etag)), []) := by
  have := collectResultsLoop_ok rs [] h
  simpa [collectResults] using this

/-- A by-number-sorted list with pairwise distinct numbers is strictly
sorted by number. -/
theorem sorted_lt_of_nodup (l : List (Nat × String))
    (hnd : (l.map Prod.fst).Nodup) (hs : List.Sorted partLE l) :
    List.Pairwise (fun a b : Nat × String => a.1 < b.1) l := by
  have hne : List.Pairwise (fun a b : Nat × String => a.1 ≠ b.1) l :=
    List.pairwise_map.mp hnd
  exact (hs.and hne).imp fun hab => lt_of_le_of_ne hab.1 hab.2

/-- Sorting by number is invariant under permutation of the input when the
numbers are pairwise distinct. -/
theorem sortPartsByNumber_eq_of_perm (l l' : List (Nat × String))
    (hperm : l.Perm l') (hnd : (l.map Prod.fst).Nodup) :
    sortPartsByNumber l = sortPartsByNumber l' := by
  have h1 := List.perm_insertionSort partLE l
  have h2 := List.perm_insertionSort partLE l'
  have hp : (sortPartsByNumber l).Perm (sortPartsByNumber l') :=
    h1.trans (hperm.trans h2.symm)
  have hndl : ((sortPartsByNumber l).map Prod.fst).Nodup :=
    ((h1.map Prod.fst).nodup_iff).mpr hnd
  have hndl' : ((sortPartsByNumber l').map Prod.fst).Nodup :=
    ((h2.map Prod.fst).nodup_iff).mpr (((hperm.map Prod.fst).nodup_iff).mp hnd)
  exact List.eq_of_perm_of_sorted hp
    (sorted_lt_of_nodup _ hndl (List.sorted_insertionSort partLE l))
    (sorted_lt_of_nodup _ hndl' (List.sorted_insertionSort partLE l'))

/-- C3: collectResults does not drain the channel after the first error.
On the result sequence [error for part 1, success for part 2] it returns
the first error at once (with nil parts, matching the claim there) but the
second result is left unconsumed on the channel, contradicting the claimed
consume-until-close behaviour.  In the Upload pipeline an abandoned result
channel can block the workers forever once its buffer fills. -/
theorem collectResults_stops_at_first_error :
    collectResults [⟨1, "", some "boom"⟩, ⟨2, "etag2", none⟩]
      = (some (UErr.uploadError "uploading part 1" "boom"), [],
          [⟨2, "etag2", none⟩]) := rfl

/-- C6: for every all-success result sequence with pairwise distinct part
numbers, collectResults succeeds, returns the (number, etag) pairs sorted
strictly ascending by number, the returned list is a permutation of the
delivered pairs, and any arrival order of the same results yields the
identical list. -/
theorem collectResults_sorted_deterministic (rs rs' : List completedPart)
    (hok : ∀ r ∈ rs, r.err = none)
    (hnd : (rs.map completedPart.number).Nodup)
    (hperm : rs.Perm rs') :
    (collectResults rs).1 = none ∧
    List.Pairwise (fun a b : Nat × String => a.1 < b.1) (collectResults rs).2.1 ∧
    ((collectResults rs).2.1).Perm (rs.map fun r => (r.number, r.etag)) ∧
    (collectResults rs').2.1 = (collectResults rs).2.1 := by
  have hok' : ∀ r ∈ rs', r.err = none := fun r hr => hok r (hperm.mem_iff.mpr hr)
  have hndp : ((rs.map fun r => (r.number, r.etag)).map Prod.fst).Nodup := by
    rw [List.map_map]
    exact hnd
  rw [collectResults_ok rs hok, collectResults_ok rs' hok']
  refine ⟨rfl, ?_, ?_, ?_⟩
  · exact sorted_lt_of_nodup _
      (((List.perm_insertionSort partLE _).map Prod.fst).nodup_iff.mpr hndp)
      (List.sorted_insertionSort partLE _)
  · exact List.perm_insertionSort partLE _
  · exact (sortPartsByNumber_eq_of_perm _ _ (hperm.map fun r => (r.number, r.etag)) hndp).symm

/-- Witness for collectResults_sorted_deterministic: parts 3 and 1 arriving
in either order produce the same sorted completion list. -/
theorem collectResults_sorted_witness :
    (collectResults [⟨1, "e1", none⟩, ⟨3, "e3", none⟩]).2.1
      = (collectResults [⟨3, "e3", none⟩, ⟨1, "e1", none⟩]).2.1 :=
  (collectResults_sorted_deterministic
    [⟨3, "e3", none⟩, ⟨1, "e1", none⟩] [⟨1, "e1", none⟩, ⟨3, "e3", none⟩]
    (by decide) (by decide) (by decide)).2.2.2

/-- The read loop of produceparts (uploader.go lines 260-306), modelled on
the whole byte stream (bytes as Nat).  io.ReadFull fills the partSize-byte
buffer from the remaining stream: with 0 < partSize it delivers
min(partSize, remaining) bytes — at least one from a nonempty stream — and
the loop publishes them under the next part number, stopping at EOF on an
exhausted stream without publishing an empty part.  The first argument after
partSize is the next part number. -/
def producepartsFrom (partSize : Nat) : Nat → List Nat → List (Nat × List Nat)
  | _, [] => []
  | n, b :: rest =>
      (n, b :: rest.take (partSize - 1))
        :: producepartsFrom partSize (n + 1) (rest.drop (partSize - 1))
termination_by _ l => l.length
decreasing_by simp only [List.length_drop, List.length_cons]; omega

/-- produceparts from uploader.go: part numbers start at 1. -/
def produceparts (partSize : Nat) (data : List Nat) : List (Nat × List Nat) :=
  producepartsFrom partSize 1 data

/-- Chunking arithmetic: consuming one partSize-chunk of a nonempty stream
decreases the ceiling part count by exactly one. -/
theorem goCeilDiv_succ_chunk (s L : Nat) (hs : 0 < s) :
    goCeilDiv (L + 1) s = goCeilDiv (L - (s - 1)) s + 1 := by
  unfold goCeilDiv
  rcases le_or_lt (s - 1) L with h | h
  · have h1 : L + 1 + s - 1 = L - (s - 1) + s - 1 + s := by omega
    rw [h1, Nat.add_div_right _ hs]
  · have h1 : L - (s - 1) = 0 := by omega
    have h2 : (0 + s - 1) / s = 0 := Nat.div_eq_of_lt (by omega)
    have h3 : (L + 1 + s - 1) / s = 1 :=
      Nat.div_eq_of_lt_le (by omega) (by omega)
    rw [h1, h2, h3]

/-- The part numbers produced from number n onward are exactly the
ceiling-many consecutive numbers starting at n. -/
theorem producepartsFrom_map_fst (partSize : Nat) (hs : 0 < partSize) :
    ∀ (n : Nat) (data : List Nat),
      (producepartsFrom partSize n data).map Prod.fst
        = List.range' n (goCeilDiv data.length partSize) := by
  intro n data
  induction n, data using producepartsFrom.induct partSize with
  | case1 n =>
    have h0 : goCeilDiv 0 partSize = 0 := Nat.div_eq_of_lt (by omega)
    simp [producepartsFrom, h0]
  | case2 n b rest ih =>
    have hcount := goCeilDiv_succ_chunk partSize rest.length hs
    simp only [producepartsFrom, List.map_cons, ih, List.length_drop,
      List.length_cons, hcount, List.range'_succ]

/-- Concatenating the produced payloads in sequence order restores the
stream. -/
theorem producepartsFrom_flatten (partSize : Nat) (hs : 0 < partSize) :
    ∀ (n : Nat) (data : List Nat),
      ((producepartsFrom partSize n data).map Prod.snd).flatten = data := by
  intro n data
  induction n, data using producepartsFrom.induct partSize with
  | case1 n => simp [producepartsFrom]
  | case2 n b rest ih =>
    simp only [producepartsFrom, List.map_cons, List.flatten_cons, ih,
      List.cons_append, List.take_append_drop]

/-- C7: for every stream and positive chosen part size, produceparts
publishes exactly ceil(totalSize / partSize) parts numbered consecutively
from 1 with no gaps or repeats, and the payloads concatenated in sequence
order equal the input bytes. -/
theorem produceparts_numbering (partSize : Nat) (data : List Nat)
    (hs : 0 < partSize) :
    (produceparts partSize data).map Prod.fst
        = List.range' 1 (goCeilDiv data.length partSize) ∧
    ((produceparts partSize data).map Prod.snd).flatten = data :=
  ⟨producepartsFrom_map_fst partSize hs 1 data,
   producepartsFrom_flatten partSize hs 1 data⟩

/-- Witness for produceparts_numbering: a 3-byte stream in 2-byte parts. -/
theorem produceparts_numbering_witness :
    ((produceparts 2 [10, 20, 30]).map Prod.snd).flatten = [10, 20, 30] :=
  (produceparts_numbering 2 [10, 20, 30] (by decide)).2

/-- Payload bounds: every published part holds between 1 and partSize
bytes. -/
theorem producepartsFrom_payload_bounds (partSize : Nat) (hs : 0 < partSize) :
    ∀ (n : Nat) (data : List Nat),
      ∀ p ∈ producepartsFrom partSize n data, 1 ≤ p.2.length ∧ p.2.length ≤ partSize := by
  intro n data
  induction n, data using producepartsFrom.induct partSize with
  | case1 n => simp [producepartsFrom]
  | case2 n b rest ih =>
    intro p hp
    rw [producepartsFrom] at hp
    rcases List.mem_cons.mp hp with hhead | htail
    · subst hhead
      simp only [List.length_cons, List.length_take]
      constructor
      · omega
      · have := Nat.min_le_left (partSize - 1) rest.length
        omega
    · exact ih p htail

/-- Every part except possibly the last is exactly partSize bytes. -/
theorem producepartsFrom_dropLast_full (partSize : Nat) (hs : 0 < partSize) :
    ∀ (n : Nat) (data : List Nat),
      ∀ p ∈ (producepartsFrom partSize n data).dropLast, p.2.length = partSize := by
  intro n data
  induction n, data using producepartsFrom.induct partSize with
  | case1 n => simp [producepartsFrom]
  | case2 n b rest ih =>
    intro p hp
    rw [producepartsFrom] at hp
    cases htail : producepartsFrom partSize (n + 1) (rest.drop (partSize - 1)) with
    | nil => rw [htail] at hp; simp at hp
    | cons q qs =>
      rw [htail, List.dropLast_cons₂] at hp
      rcases List.mem_cons.mp hp with hhead | hmem
      · subst hhead
        have hne : rest.drop (partSize - 1) ≠ [] := by
          intro hnil
          rw [hnil] at htail
          simp [producepartsFrom] at htail
        have hlen : partSize - 1 < rest.length := by
          by_contra hle
          exact hne (List.drop_eq_nil_iff.mpr (by omega))
        simp only [List.length_cons, List.length_take]
        omega
      · rw [htail] at ih
        exact ih p hmem

/-- C9: with a positive part size every published part is nonempty and at
most partSize bytes, every part other than the last is exactly partSize
bytes, and an empty stream publishes no parts at all. -/
theorem produceparts_payload_sizes (partSize : Nat) (data : List Nat)
    (hs : 0 < partSize) :
    (∀ p ∈ produceparts partSize data, 1 ≤ p.2.length ∧ p.2.length ≤ partSize) ∧
    (∀ p ∈ (produceparts partSize data).dropLast, p.2.length = partSize) ∧
    (produceparts partSize data = [] ↔ data = []) := by
  refine ⟨producepartsFrom_payload_bounds partSize hs 1 data,
    producepartsFrom_dropLast_full partSize hs 1 data, ?_⟩
  cases data with
  | nil => simp [produceparts, producepartsFrom]
  | cons b rest => simp [produceparts, producepartsFrom]

/-- Witness for produceparts_payload_sizes: the first part of a 5-byte
stream in 2-byte parts holds between 1 and 2 bytes. -/
theorem produceparts_payload_witness :
    1 ≤ ((1, [1, 2]) : Nat × List Nat).2.length ∧
    ((1, [1, 2]) : Nat × List Nat).2.length ≤ 2 :=
  (produceparts_payload_sizes 2 [1, 2, 3, 4, 5] (by decide)).1 (1, [1, 2])
    (by simp [produceparts, producepartsFrom])

/-- Classification facts that errors.As / errors.Is can extract from a Go
error chain, as tested by isRetryableError (uploader.go lines 309-348).  A
single error value can satisfy several at once: for example a net.OpError
whose wrapped cause is context.Canceled is a net.Error and also matches
errors.Is(err, context.Canceled). -/
structure GoErrorShape where
  isNetError : Bool
  isSyscallErrno : Bool
  apiErrorCode : Option String
  isCanceled : Bool
  isDeadlineExceeded : Bool
deriving DecidableEq

/-- The retryable API-error test of uploader.go lines 330-338: the explicit
transient codes, or any code of length at least 3 whose first character is
the digit 5. -/
def apiCodeRetryable (code : String) : Bool :=
  code = "InternalError" || code = "ServiceUnavailable" || code = "SlowDown" ||
  code = "RequestTimeout" ||
  (decide (3 ≤ code.length) && decide (code.data.head? = some '5'))

/-- isRetryableError from uploader.go lines 309-348, with the branches in
source order: nil is not retryable; net errors, syscall errors and
retryable API codes are retryable; then context errors are not; anything
else is retryable by default. -/
def isRetryableError : Option GoErrorShape → Bool
  | none => false
  | some e =>
    if e.isNetError then true
    else if e.isSyscallErrno then true
    else if (match e.apiErrorCode with
             | some code => apiCodeRetryable code
             | none => false) then true
    else if e.isCanceled || e.isDeadlineExceeded then false
    else true

/-- C4 (amended): an error that is or wraps context.Canceled or
context.DeadlineExceeded is classified non-retryable provided none of the
earlier branches of isRetryableError fires: its chain contains no net.Error
and no syscall.Errno, and any API error code it carries is non-retryable.
The original unconditional claim fails because the net.Error branch is
checked before the context branch. -/
theorem ctx_errors_not_retryable (e : GoErrorShape)
    (hnet : e.isNetError = false) (hsys : e.isSyscallErrno = false)
    (hapi : ∀ code, e.apiErrorCode = some code → apiCodeRetryable code = false)
    (hctx : e.isCanceled = true ∨ e.isDeadlineExceeded = true) :
    isRetryableError (some e) = false := by
  obtain ⟨n, s, a, c, d⟩ := e
  simp only at hnet hsys hapi
  subst hnet hsys
  cases a with
  | none =>
    rcases hctx with h | h <;> simp only at h <;> subst h <;>
      simp [isRetryableError]
  | some code =>
    have hcode := hapi code rfl
    rcases hctx with h | h <;> simp only at h <;> subst h <;>
      simp [isRetryableError, hcode]

/-- Witness for ctx_errors_not_retryable: a bare context.Canceled error is
not retried. -/
theorem ctx_errors_not_retryable_witness :
    isRetryableError (some ⟨false, false, none, true, false⟩) = false :=
  ctx_errors_not_retryable ⟨false, false, none, true, false⟩ rfl rfl
    (fun code h => by simp at h) (Or.inl rfl)

/-- C4 counterexample: an error that is a net.Error and also wraps
context.Canceled (a net.OpError with a cancellation cause) is classified
retryable, because the net.Error branch precedes the context branch. -/
theorem net_wrapped_cancellation_retryable :
    isRetryableError (some ⟨true, false, none, true, false⟩) = true := rfl

/-- The outcomes of the external calls that one Upload run can observe:
the CreateMultipartUpload result (and the upload id it assigned), the
producer result, the sequence of worker results delivered on the result
channel, the CompleteMultipartUpload result, and the AbortMultipartUpload
result used if abort is invoked. -/
structure UploadEnv where
  initErr : Option String
  uploadID : String
  producerErr : Option UErr
  results : List completedPart
  completeErr : Option String
  abortErr : Option String

/-- Observable outcome of Abort: whether the local context was cancelled,
how many remote AbortMultipartUpload calls were issued, and the returned
error. -/
structure AbortOutcome where
  cancelCalled : Bool
  abortCalls : Nat
  returned : Option UErr
deriving DecidableEq

/-- Abort from uploader.go lines 499-517: always cancels the local context;
with no stored uploadID it returns nil without a remote call; otherwise it
issues exactly one remote AbortMultipartUpload and wraps its failure. -/
def Abort (uploadID : String) (remoteAbortErr : Option String) : AbortOutcome :=
  if uploadID = "" then { cancelCalled := true, abortCalls := 0, returned := none }
  else
    match remoteAbortErr with
    | some e =>
        { cancelCalled := true, abortCalls := 1,
          returned := some (UErr.uploadError "AbortMultipartUpload" e) }
    | none => { cancelCalled := true, abortCalls := 1, returned := none }

/-- Upload from uploader.go lines 136-213, as the pair of returned error and
number of remote AbortMultipartUpload calls issued.  The deferred cleanup
(lines 153-158) runs u.Abort() only when the local uploadErr is non-nil;
uploadErr is assigned on the producer path (line 182) and the complete path
(line 201) but not on the collector error return (line 196), which this
model reproduces faithfully.  The abort error is discarded (line 156), so
the returned error never depends on abortErr. -/
def Upload (env : UploadEnv) : Option UErr × Nat :=
  match env.initErr with
  | some e => (some (UErr.uploadError "CreateMultipartUpload" e), 0)
  | none =>
    match env.producerErr with
    | some e => (some e, (Abort env.uploadID env.abortErr).abortCalls)
    | none =>
      match (collectResults env.results).1 with
      | some e => (some e, 0)
      | none =>
        match env.completeErr with
        | some e => (some (UErr.uploadError "CompleteMultipartUpload" e),
            (Abort env.uploadID env.abortErr).abortCalls)
        | none => (none, 0)

/-- C2: with a live session, a successful producer and a chunk failure among
the results, Upload returns the chunk error having issued zero
AbortMultipartUpload calls: the deferred cleanup is skipped because
uploadErr is never assigned on the collector error path, so the remote
session is not aborted before the error returns. -/
theorem upload_chunk_failure_skips_abort :
    Upload { initErr := none, uploadID := "uid", producerErr := none,
             results := [⟨1, "etag1", none⟩, ⟨2, "", some "boom"⟩],
             completeErr := none, abortErr := none }
      = (some (UErr.uploadError "uploading part 2" "boom"), 0) := rfl

/-- C10: when no remote multipart session was ever created (the stored
uploadID is the empty string), Abort cancels the local context and returns
nil without issuing any remote AbortMultipartUpload call, whatever the
remote abort outcome would have been. -/
theorem abort_without_session (remoteAbortErr : Option String) :
    Abort "" remoteAbortErr
      = { cancelCalled := true, abortCalls := 0, returned := none } := rfl

end Streamup
